import Mathlib

/-!
Verification of the Notion-to-Markdown converter
(`scripts/fetch_notion_article.py`) against its natural-language
specification.  The Python functions are shallowly embedded as Lean
definitions below, keeping the source's names and structure:
strings are Lean `String`s, Notion JSON objects become structures with
the fields the code reads, the mutable conversion-session state
(`self.images`, `self.image_counter`) is threaded explicitly, and the
image downloader is abstracted as a boolean oracle `dl : String → Bool`
(the session additionally records the URLs passed to the downloader, so
that "no download was attempted" is observable).
-/

/-- Style flags of a Notion rich-text span (the `annotations` dict read by
`_rich_text_to_markdown`; absent keys default to false). -/
structure Ann where
  bold : Bool
  italic : Bool
  strikethrough : Bool
  underline : Bool
  code : Bool
deriving Repr, DecidableEq

/-- One element of a Notion `rich_text` array, with the fields the code
reads: the `type` tag, `plain_text`, the style flags, the optional `href`
(`none` models an absent key), and `equation.expression` (empty when the
item carries no equation payload). -/
structure RichTextItem where
  type : String
  plain_text : String
  ann : Ann
  href : Option String
  expression : String
deriving Repr, DecidableEq

/-- Embedding of Python's `str.strip()`: drop whitespace characters from
both ends. -/
def pyStrip (s : String) : String :=
  String.mk
    (((s.data.dropWhile Char.isWhitespace).reverse.dropWhile
        Char.isWhitespace).reverse)

/-- Embedding of `_rich_text_to_markdown`'s per-item processing: equation
items render as `$expr$` when the stripped expression is non-empty and skip
all other processing; other items with empty `plain_text` contribute
nothing; otherwise the style wrappers are applied in source order (bold,
italic, strikethrough, underline, code) and finally the hyperlink wrapper
when `href` is present and non-empty (Python truthiness). -/
def richTextItemToMarkdown (item : RichTextItem) : String :=
  if item.type = "equation" then
    if pyStrip item.expression ≠ "" then "$" ++ item.expression ++ "$" else ""
  else if item.plain_text = "" then ""
  else
    let t := item.plain_text
    let t := if item.ann.bold then "**" ++ t ++ "**" else t
    let t := if item.ann.italic then "*" ++ t ++ "*" else t
    let t := if item.ann.strikethrough then "~~" ++ t ++ "~~" else t
    let t := if item.ann.underline then "<u>" ++ t ++ "</u>" else t
    let t := if item.ann.code then "`" ++ t ++ "`" else t
    match item.href with
    | some h => if h ≠ "" then "[" ++ t ++ "](" ++ h ++ ")" else t
    | none => t

/-- Embedding of `_rich_text_to_markdown`: each item is rendered and the
results are concatenated with no separator (`"".join(parts)`). -/
def rich_text_to_markdown (rich_text : List RichTextItem) : String :=
  String.join (rich_text.map richTextItemToMarkdown)

/-- Embedding of `_extract_plain_text`: concatenation of the items'
`plain_text` fields. -/
def extract_plain_text (rich_text : List RichTextItem) : String :=
  String.join (rich_text.map (fun item => item.plain_text))

/-- A plain-text span constructor (a rich-text item of type `"text"`). -/
def mkText (t : String) (a : Ann) (href : Option String) : RichTextItem :=
  { type := "text", plain_text := t, ann := a, href := href, expression := "" }

/-- The all-false style flags. -/
def plainAnn : Ann :=
  { bold := false, italic := false, strikethrough := false,
    underline := false, code := false }

theorem string_foldl_append_eq (l : List String) (init : String) :
    l.foldl (· ++ ·) init = init ++ l.foldl (· ++ ·) "" := by
  induction l generalizing init with
  | nil => simp [List.foldl]
  | cons x xs ih =>
    simp only [List.foldl]
    rw [ih (init ++ x), ih ("" ++ x), String.empty_append, String.append_assoc]

theorem string_join_append (l1 l2 : List String) :
    String.join (l1 ++ l2) = String.join l1 ++ String.join l2 := by
  unfold String.join
  rw [List.foldl_append, string_foldl_append_eq l2 (l1.foldl (· ++ ·) "")]

theorem rich_text_cons (x : RichTextItem) (l : List RichTextItem) :
    rich_text_to_markdown (x :: l) =
      richTextItemToMarkdown x ++ rich_text_to_markdown l := by
  have h := string_join_append [richTextItemToMarkdown x]
      (l.map richTextItemToMarkdown)
  simpa [rich_text_to_markdown, String.join] using h

/-- C8: Inline rendering is a monoid homomorphism over span sequences:
rendering the concatenation of two span lists yields the concatenation of
their renderings, with no separator. -/
theorem render_append_hom (a b : List RichTextItem) :
    rich_text_to_markdown (a ++ b) =
      rich_text_to_markdown a ++ rich_text_to_markdown b := by
  unfold rich_text_to_markdown
  rw [List.map_append, string_join_append]

/-- Modelled from the spec: claim C2's stated composition direction, in
which the listed order bold, italic, strikethrough, underline, inline-code,
link is read outermost-to-innermost (so the link wrapper, listed last, is
applied first / innermost and the bold wrapper last / outermost). -/
def specOuterFirstWrap (t0 : String) (a : Ann) (href : Option String) : String :=
  let t := t0
  let t := match href with
    | some h => if h ≠ "" then "[" ++ t ++ "](" ++ h ++ ")" else t
    | none => t
  let t := if a.code then "`" ++ t ++ "`" else t
  let t := if a.underline then "<u>" ++ t ++ "</u>" else t
  let t := if a.strikethrough then "~~" ++ t ++ "~~" else t
  let t := if a.italic then "*" ++ t ++ "*" else t
  let t := if a.bold then "**" ++ t ++ "**" else t
  t

/-- Wrap `t` in the given opening and closing tags when the flag is set. -/
def wrapIf (b : Bool) (pre post : String) : String → String :=
  fun t => if b then pre ++ t ++ post else t

/-- The six wrappers of the spec's list, in its listed order bold, italic,
strikethrough, underline, inline-code, link. -/
def listedWrappers (a : Ann) (href : Option String) : List (String → String) :=
  [ wrapIf a.bold "**" "**",
    wrapIf a.italic "*" "*",
    wrapIf a.strikethrough "~~" "~~",
    wrapIf a.underline "<u>" "</u>",
    wrapIf a.code "`" "`",
    fun t => match href with
      | some h => if h ≠ "" then "[" ++ t ++ "](" ++ h ++ ")" else t
      | none => t ]

/-- The span with exactly bold and italic set. -/
def boldItalicAnn : Ann :=
  { bold := true, italic := true, strikethrough := false,
    underline := false, code := false }

/-- The span with exactly bold and inline-code set, which distinguishes the
two nesting directions. -/
def boldCodeAnn : Ann :=
  { bold := true, italic := false, strikethrough := false,
    underline := false, code := true }

/-- C2 counterexample: on a span with exactly bold and inline-code set the
code nests the code wrapper outermost (it renders the backtick-wrapped
bold text), while the claim's outermost-to-innermost reading of the listed
order puts bold outermost; the two differ on the concrete span "x". -/
theorem style_order_cex :
    rich_text_to_markdown [mkText "x" boldCodeAnn none] = "`**x**`" ∧
    specOuterFirstWrap "x" boldCodeAnn none = "**`x`**" ∧
    rich_text_to_markdown [mkText "x" boldCodeAnn none] ≠
      specOuterFirstWrap "x" boldCodeAnn none := by
  refine ⟨by decide, by decide, by decide⟩

/-- C2 (amended): for every non-empty plain span the renderer applies the
wrappers of the spec's list in the listed order bold, italic,
strikethrough, underline, inline-code, link, innermost-to-outermost as
listed (the fold applies the head wrapper first, so bold is innermost and
the link is outermost), each wrapper only when its flag is set; in
particular a span with exactly bold and italic set renders as
`***text***`. -/
theorem style_wrap_order (t : String) (a : Ann) (href : Option String)
    (h : t ≠ "") :
    richTextItemToMarkdown (mkText t a href) =
      (listedWrappers a href).foldl (fun acc f => f acc) t ∧
    rich_text_to_markdown [mkText "text" boldItalicAnn none] = "***text***" := by
  constructor
  · obtain ⟨b, i, st, u, c⟩ := a
    cases b <;> cases i <;> cases st <;> cases u <;> cases c <;>
      simp [richTextItemToMarkdown, mkText, listedWrappers, wrapIf, h]
  · decide

/-- C2 witness: the amended order theorem instantiated at the
bold-and-code span "x" (nonempty), whose rendering nests code outermost. -/
theorem style_wrap_order_witness :
    richTextItemToMarkdown (mkText "x" boldCodeAnn none) =
      (listedWrappers boldCodeAnn none).foldl (fun acc f => f acc) "x" :=
  (style_wrap_order "x" boldCodeAnn none (by decide)).1

/-- C7: an inline span of equation type renders as the dollar-wrapped
expression when the stripped expression is non-empty — with no style
wrapping and no link wrapping, whatever the style flags, href and
plain text of the item — and renders as the empty string when the
expression is blank. -/
theorem equation_span_render (e pt : String) (a : Ann) (href : Option String) :
    (pyStrip e ≠ "" →
      rich_text_to_markdown
          [{ type := "equation", plain_text := pt, ann := a,
             href := href, expression := e }] = "$" ++ e ++ "$") ∧
    (pyStrip e = "" →
      rich_text_to_markdown
          [{ type := "equation", plain_text := pt, ann := a,
             href := href, expression := e }] = "") := by
  constructor
  · intro h
    simp [rich_text_to_markdown, richTextItemToMarkdown, String.join, h]
  · intro h
    simp [rich_text_to_markdown, richTextItemToMarkdown, String.join, h]

/-- C7 witness: an equation span with every style flag set and a link
present still renders as exactly the dollar-wrapped expression. -/
theorem equation_span_render_witness :
    rich_text_to_markdown
        [{ type := "equation", plain_text := "ignored",
           ann := { bold := true, italic := true, strikethrough := true,
                    underline := true, code := true },
           href := some "http://h", expression := "E=mc^2" }] = "$E=mc^2$" :=
  (equation_span_render "E=mc^2" "ignored"
      { bold := true, italic := true, strikethrough := true,
        underline := true, code := true } (some "http://h")).1 (by decide)

/-- Substring containment on character lists (Python's `in` operator on
strings). -/
def subOccurs (pat : List Char) : List Char → Bool
  | [] => pat.isEmpty
  | c :: rest => pat.isPrefixOf (c :: rest) || subOccurs pat rest

/-- Python's `pat in s` substring test, on `String`s. -/
def containsSub (pat s : String) : Bool :=
  subOccurs pat.data s.data

/-- Embedding of `url.split("?")[0]`: the part of the URL before the first
question mark. -/
def stripQuery (url : String) : String :=
  String.mk (url.data.takeWhile (fun c => c ≠ '?'))

/-- Embedding of Python's `str.lower()` (the code lowercases only ASCII
extension candidates). -/
def pyLower (s : String) : String :=
  String.mk (s.data.map Char.toLower)

/-- Embedding of `os.path.splitext(p)[1]` (POSIX flavour): the extension of
the last path component, where a component whose characters before its last
dot are all dots (a hidden-file name such as `.jpg`) has no extension. -/
def splitextExt (p : String) : String :=
  let base := (p.data.reverse.takeWhile (fun c => c ≠ '/')).reverse
  let rev := base.reverse
  let afterDot := rev.takeWhile (fun c => c ≠ '.')
  match rev.dropWhile (fun c => c ≠ '.') with
  | [] => ""
  | _ :: pre =>
    if pre.any (fun c => c ≠ '.') then String.mk ('.' :: afterDot.reverse)
    else ""

/-- The recognized image extensions of `_get_extension`. -/
def recognizedExts : List String :=
  [".jpg", ".jpeg", ".png", ".gif", ".webp", ".svg"]

/-- Embedding of `_get_extension`: strip the query string; when the
remainder contains a dot and its `splitext` extension, lowercased, is
recognized, return it; otherwise default to `.png` when the original URL
contains `amazonaws.com` or `notion`, else `.jpg`. -/
def get_extension (url : String) : String :=
  let clean_url := stripQuery url
  let fromPath : Option String :=
    if clean_url.data.contains '.' then
      let ext := pyLower (splitextExt clean_url)
      if recognizedExts.contains ext then some ext else none
    else none
  match fromPath with
  | some ext => ext
  | none =>
    if containsSub "amazonaws.com" url || containsSub "notion" url then ".png"
    else ".jpg"

/-- Case-insensitive suffix test used by the spec-modelled reading of the
extension heuristic. -/
def strEndsWithCI (s pat : String) : Bool :=
  pat.data.reverse.isPrefixOf (pyLower s).data.reverse

/-- Modelled from the spec: claim C9's reading of extension inference, in
which the stripped URL merely has to end (case-insensitively) in one of the
recognized extensions for that extension to be returned. -/
def spec_get_extension (url : String) : String :=
  let clean_url := stripQuery url
  match recognizedExts.find? (fun e => strEndsWithCI clean_url e) with
  | some ext => ext
  | none =>
    if containsSub "amazonaws.com" url || containsSub "notion" url then ".png"
    else ".jpg"

/-- Notion image object (the value of an `image` block or page `cover`):
the `type` tag (`none` models an absent key), the `external.url` and
`file.url` fields (empty models an absent key, matching the code's `""`
defaults) and the caption array. -/
structure ImageObj where
  itype : Option String
  external_url : String
  file_url : String
  caption : List RichTextItem
deriving Repr, DecidableEq

/-- An image object carrying no fields at all. -/
def noImage : ImageObj :=
  { itype := none, external_url := "", file_url := "", caption := [] }

/-- Embedding of `_get_image_url`: dispatch on the object's `type` tag. -/
def get_image_url (image_obj : ImageObj) : String :=
  match image_obj.itype with
  | some "external" => image_obj.external_url
  | some "file" => image_obj.file_url
  | _ => ""

/-- One entry of `self.images`, the session's resource ledger. -/
structure ImageRecord where
  original_url : String
  local_path : String
  itype : String
deriving Repr, DecidableEq

/-- The conversion-session state: the resource ledger `self.images`, the
media counter `self.image_counter`, and (instrumentation of the embedding)
the list of URLs passed to `_download_image`, in call order. -/
structure Session where
  images : List ImageRecord
  image_counter : Nat
  attempts : List String
deriving Repr, DecidableEq

/-- The state `_process_page` resets to before converting a document. -/
def initSession : Session :=
  { images := [], image_counter := 0, attempts := [] }

/-- Embedding of Python's `f"{n:03d}"` for a natural number: left-pad the
decimal digits with zeros to width three. -/
def pad3 (n : Nat) : String :=
  let s := toString n
  if s.length < 3 then String.mk (List.replicate (3 - s.length) '0') ++ s
  else s

/-- Embedding of `_image_block_to_markdown`.  The downloader is the oracle
`dl`; a call to it is recorded in the session's `attempts`.  When no URL
can be extracted the block renders as the empty string and the session is
untouched.  Otherwise the counter is incremented, a local filename is
derived from it, and the download is attempted: on success the ledger gains
an entry and the output references the local path, on failure the output
falls back to the original URL; the caption, when non-empty, becomes the
alt text in both cases. -/
def image_block_to_markdown (dl : String → Bool) (images_dir : String)
    (image_block : ImageObj) (s : Session) : String × Session :=
  let url := get_image_url image_block
  if url = "" then ("", s)
  else
    let counter := s.image_counter + 1
    let ext := get_extension url
    let filename := "image_" ++ pad3 counter ++ ext
    let local_path := images_dir ++ "/" ++ filename
    let image_type := image_block.itype.getD "external"
    let attempted : Session :=
      { s with image_counter := counter, attempts := s.attempts ++ [url] }
    let caption := extract_plain_text image_block.caption
    if dl url then
      let s1 : Session :=
        { attempted with
            images := attempted.images ++
              [{ original_url := url, local_path := local_path,
                 itype := image_type }] }
      (if caption ≠ "" then "![" ++ caption ++ "](" ++ local_path ++ ")"
       else "![](" ++ local_path ++ ")", s1)
    else
      (if caption ≠ "" then "![" ++ caption ++ "](" ++ url ++ ")"
       else "![](" ++ url ++ ")", attempted)

theorem splitextExt_of_no_dot (p : String) (hmem : '.' ∉ p.data) :
    splitextExt p = "" := by
  unfold splitextExt
  have hd :
      (((p.data.reverse.takeWhile (fun c => c ≠ '/')).reverse).reverse.dropWhile
          (fun c => c ≠ '.')) = [] := by
    rw [List.dropWhile_eq_nil_iff]
    intro x hx
    simp only [List.reverse_reverse] at hx
    have hx2 : x ∈ p.data.reverse :=
      List.Sublist.mem hx (List.takeWhile_sublist _)
    have hx3 : x ∈ p.data := by simpa using hx2
    simp only [ne_eq, decide_eq_true_eq]
    intro heq
    exact hmem (heq ▸ hx3)
  simp only [hd]

/-- C9 counterexample: for the URL `https://notion.so/.jpg` the stripped
path ends in the recognized extension `.jpg`, so the claim requires `.jpg`;
but `os.path.splitext` treats the hidden-file basename `.jpg` as having no
extension, so the code falls through to the host heuristic and returns
`.png`. -/
theorem extension_hidden_file_cex :
    get_extension "https://notion.so/.jpg" = ".png" ∧
    spec_get_extension "https://notion.so/.jpg" = ".jpg" ∧
    get_extension "https://notion.so/.jpg" ≠
      spec_get_extension "https://notion.so/.jpg" := by
  refine ⟨by decide, by decide, by decide⟩

/-- C9 (amended): extension inference strips the query string and takes the
`splitext` extension of the remainder (the extension of the last path
component, which is empty when the component's characters before its last
dot are all dots — e.g. the bare hidden-file name `.jpg`), lowercased; if
that candidate is one of .jpg/.jpeg/.png/.gif/.webp/.svg it is returned;
otherwise the result is `.png` when the full URL contains `amazonaws.com`
or `notion`, else `.jpg`. -/
theorem get_extension_characterization (url : String) :
    get_extension url =
      (if recognizedExts.contains (pyLower (splitextExt (stripQuery url)))
       then pyLower (splitextExt (stripQuery url))
       else
         if containsSub "amazonaws.com" url || containsSub "notion" url
         then ".png" else ".jpg") := by
  unfold get_extension
  by_cases hdot : '.' ∈ (stripQuery url).data
  · by_cases hrec :
        pyLower (splitextExt (stripQuery url)) ∈ recognizedExts
    · simp [hdot, hrec]
    · simp [hdot, hrec]
  · rw [splitextExt_of_no_dot _ hdot]
    have hempty : pyLower "" ∉ recognizedExts := by decide
    simp [hdot, hempty]

/-- C10: for an image block from which no URL can be extracted the block
renders as the empty string and the session is returned untouched: the
media counter is not incremented, no download is attempted (the attempt
log is unchanged) and no ledger entry is appended. -/
theorem urlless_image_noop (dl : String → Bool) (images_dir : String)
    (image_block : ImageObj) (s : Session)
    (h : get_image_url image_block = "") :
    image_block_to_markdown dl images_dir image_block s = ("", s) := by
  unfold image_block_to_markdown
  simp [h]

/-- C10 witness: the no-op theorem instantiated at an image object with no
fields, a downloader that always succeeds, and the initial session. -/
theorem urlless_image_noop_witness :
    image_block_to_markdown (fun _ => true) "images" noImage initSession =
      ("", initSession) :=
  urlless_image_noop (fun _ => true) "images" noImage initSession (by decide)

/-- The fields of a Notion block that the converter reads, flattened over
the block kinds: the `type` tag, the kind's `rich_text` array, the to-do
`checked` flag, the code `language`, the equation `expression`, the image
payload, the bookmark `url` and `caption`, the callout icon emoji (empty
models an absent icon), the table-row `cells`, and `has_children`. -/
structure BlockData where
  type : String
  rich_text : List RichTextItem
  checked : Bool
  language : String
  expression : String
  image : ImageObj
  url : String
  caption : List RichTextItem
  icon_emoji : String
  cells : List (List RichTextItem)
  has_children : Bool
deriving Repr, DecidableEq

/-- A block data record of the given kind with every payload field empty. -/
def mkData (t : String) : BlockData :=
  { type := t, rich_text := [], checked := false, language := "",
    expression := "", image := noImage, url := "", caption := [],
    icon_emoji := "", cells := [], has_children := false }

/-- A Notion block: its own data plus its lazily-fetched children (the
pagination collaborator `_get_all_blocks` is modelled as returning the
block's stored child list). -/
inductive Block where
  | node : BlockData → List Block → Block
deriving Repr

/-- The data of a block. -/
def Block.data : Block → BlockData
  | .node d _ => d

/-- The children of a block, as `_get_all_blocks` would return them. -/
def Block.children : Block → List Block
  | .node _ c => c

/-- Cell-text escaping of `_table_to_markdown`: first every pipe becomes
`\|`, then every newline becomes `<br>` (both patterns are single
characters, so `str.replace` is character-wise substitution). -/
def escapeCell (s : String) : String :=
  String.mk
    (((s.data.flatMap (fun c => if c = '|' then ['\\', '|'] else [c])).flatMap
        (fun c => if c = '\n' then ['<', 'b', 'r', '>'] else [c])))

/-- A rendered table row: the cells rendered as inline Markdown, escaped,
and joined in pipes. -/
def rowLine (cells : List (List RichTextItem)) : String :=
  "| " ++
    String.intercalate " | "
      (cells.map (fun cell => escapeCell (rich_text_to_markdown cell))) ++
    " |"

/-- The header separator row emitted after the first fetched child: one
`---` column per cell. -/
def sepLine (n : Nat) : String :=
  "| " ++ String.intercalate " | " (List.replicate n "---") ++ " |"

/-- The enumerated row loop of `_table_to_markdown`: children that are not
of kind `table_row` are skipped (but still counted by the enumeration), and
the separator is emitted only after the child at index 0. -/
def tableRowsAux : List BlockData → Nat → List String
  | [], _ => []
  | row :: rest, i =>
    if row.type = "table_row" then
      (if i = 0 then [rowLine row.cells, sepLine row.cells.length]
       else [rowLine row.cells]) ++ tableRowsAux rest (i + 1)
    else tableRowsAux rest (i + 1)

/-- Embedding of `_table_to_markdown`, taking the table block's fetched
children: zero children yield the empty-table marker, otherwise the row
lines are joined with single newlines. -/
def table_to_markdown (rows : List BlockData) : String :=
  if rows.isEmpty then "<!-- Empty table -->"
  else String.intercalate "\n" (tableRowsAux rows 0)

theorem tableRowsAux_pos (rest : List BlockData) (i : Nat) :
    tableRowsAux rest (i + 1) =
      (rest.filter (fun b => b.type = "table_row")).map
        (fun b => rowLine b.cells) := by
  induction rest generalizing i with
  | nil => simp [tableRowsAux]
  | cons r rs ih =>
    by_cases hr : r.type = "table_row"
    · simp [tableRowsAux, hr, List.filter, ih (i + 1)]
    · simp [tableRowsAux, hr, List.filter, ih (i + 1)]

/-- A table-row block data record with the given cells. -/
def mkRowData (cells : List (List RichTextItem)) : BlockData :=
  { mkData "table_row" with cells := cells }

/-- C5 counterexample: a table whose first fetched child is not a
`table_row` (here a divider) followed by a genuine two-cell row renders
with NO header separator at all — the separator is keyed to enumeration
index 0, which the skipped child consumes — although the table has a row,
so the claim's separator-after-the-first-row requirement fails. -/
theorem table_sep_cex :
    table_to_markdown
        [mkData "divider",
         mkRowData [[mkText "a" plainAnn none], [mkText "b" plainAnn none]]] =
      "| a | b |" ∧
    containsSub "---"
        (table_to_markdown
          [mkData "divider",
           mkRowData [[mkText "a" plainAnn none],
                      [mkText "b" plainAnn none]]]) = false := by
  refine ⟨by decide, by decide⟩

/-- C5 (amended): for every table block whose FIRST fetched child is a
table row, the header separator is emitted immediately after that first
row with exactly one `---` column per cell of that row (that row's own
cell count), and no other row — whatever its cell count — produces a
separator; non-row children elsewhere in the list are skipped. -/
theorem table_sep_first_row (cells : List (List RichTextItem))
    (rest : List BlockData) :
    table_to_markdown (mkRowData cells :: rest) =
      String.intercalate "\n"
        (rowLine cells :: sepLine cells.length ::
          (rest.filter (fun b => b.type = "table_row")).map
            (fun b => rowLine b.cells)) := by
  unfold table_to_markdown
  rw [if_neg (by simp)]
  have h0 : tableRowsAux (mkRowData cells :: rest) 0 =
      rowLine cells :: sepLine cells.length :: tableRowsAux rest 1 := by
    simp [tableRowsAux, mkRowData, mkData]
  rw [h0, tableRowsAux_pos rest 0]

/-- The block kinds whose children are rendered one level deeper. -/
def listKinds : List String :=
  ["bulleted_list_item", "numbered_list_item", "to_do"]

/-- Python's string repetition `s * n`. -/
def strRepeat (s : String) (n : Nat) : String :=
  String.join (List.replicate n s)

/-- The child depth rule of `_blocks_to_markdown`: depth + 1 exactly for
the three list-item kinds, depth unchanged otherwise. -/
def childDepth (block_type : String) (depth : Nat) : Nat :=
  if listKinds.contains block_type then depth + 1 else depth

/-- Embedding of `_block_to_markdown`: dispatch on the block's kind tag.
The two-space indentation string is used only by the three list-item
kinds; unknown kinds render as the empty string. -/
def block_to_markdown (dl : String → Bool) (images_dir : String) (b : Block)
    (depth : Nat) (s : Session) : String × Session :=
  let block_type := b.data.type
  if block_type = "paragraph" then
    (rich_text_to_markdown b.data.rich_text, s)
  else if block_type = "heading_1" then
    ("# " ++ rich_text_to_markdown b.data.rich_text, s)
  else if block_type = "heading_2" then
    ("## " ++ rich_text_to_markdown b.data.rich_text, s)
  else if block_type = "heading_3" then
    ("### " ++ rich_text_to_markdown b.data.rich_text, s)
  else if block_type = "bulleted_list_item" then
    (strRepeat "  " depth ++ "- " ++ rich_text_to_markdown b.data.rich_text, s)
  else if block_type = "numbered_list_item" then
    (strRepeat "  " depth ++ "1. " ++ rich_text_to_markdown b.data.rich_text, s)
  else if block_type = "to_do" then
    (strRepeat "  " depth ++ "- [" ++ (if b.data.checked then "x" else " ") ++
      "] " ++ rich_text_to_markdown b.data.rich_text, s)
  else if block_type = "quote" then
    ("> " ++ rich_text_to_markdown b.data.rich_text, s)
  else if block_type = "code" then
    ("```" ++ b.data.language ++ "\n" ++
      extract_plain_text b.data.rich_text ++ "\n```", s)
  else if block_type = "equation" then
    (if pyStrip b.data.expression ≠ "" then
      "$$\n" ++ b.data.expression ++ "\n$$"
     else "", s)
  else if block_type = "image" then
    image_block_to_markdown dl images_dir b.data.image s
  else if block_type = "bookmark" then
    (if extract_plain_text b.data.caption ≠ "" then
      "[" ++ extract_plain_text b.data.caption ++ "](" ++ b.data.url ++ ")"
     else "[" ++ b.data.url ++ "](" ++ b.data.url ++ ")", s)
  else if block_type = "callout" then
    ("> " ++
      (if b.data.icon_emoji ≠ "" then
        b.data.icon_emoji ++ " " ++ rich_text_to_markdown b.data.rich_text
       else rich_text_to_markdown b.data.rich_text), s)
  else if block_type = "divider" then
    ("---", s)
  else if block_type = "table" then
    (table_to_markdown (b.children.map Block.data), s)
  else ("", s)

/-- The block loop of `_blocks_to_markdown`: each block contributes its own
non-empty rendering and, when `has_children` is set, the non-empty joined
rendering of its children at `childDepth`; the session state threads
through in source order. -/
def blocksLines (dl : String → Bool) (images_dir : String) :
    List Block → Nat → Session → List String × Session
  | [], _, s => ([], s)
  | Block.node bd bc :: rest, depth, s =>
    let (md, s1) := block_to_markdown dl images_dir (Block.node bd bc) depth s
    let (childPart, s2) :=
      if bd.has_children then
        let (clines, s') :=
          blocksLines dl images_dir bc (childDepth bd.type depth) s1
        let child_md := String.intercalate "\n\n" clines
        (if child_md ≠ "" then [child_md] else [], s')
      else ([], s1)
    let (restLines, s3) := blocksLines dl images_dir rest depth s2
    ((if md ≠ "" then [md] else []) ++ childPart ++ restLines, s3)
termination_by bs _ _ => sizeOf bs

/-- Embedding of `_blocks_to_markdown`: the collected lines joined with
blank lines. -/
def blocks_to_markdown (dl : String → Bool) (images_dir : String)
    (blocks : List Block) (depth : Nat) (s : Session) : String × Session :=
  (String.intercalate "\n\n" (blocksLines dl images_dir blocks depth s).1,
   (blocksLines dl images_dir blocks depth s).2)

theorem strRepeat_zero (s : String) : strRepeat s 0 = "" := rfl

/-- C4: a block of one of the three list-item kinds renders at depth `d` as
the two-space indentation string repeated `d` times prepended to its
depth-zero rendering; a block of any other kind renders identically at
every depth (indentation never touches headings, paragraphs, quotes, or
any other kind); and the recursion depth passed to a block's children is
`depth + 1` exactly when the parent kind is a list-item kind, `depth`
otherwise. -/
theorem depth_and_indent_rules (dl : String → Bool) (images_dir : String)
    (b : Block) (depth : Nat) (s : Session) :
    (listKinds.contains b.data.type = true →
      (block_to_markdown dl images_dir b depth s).1 =
        strRepeat "  " depth ++ (block_to_markdown dl images_dir b 0 s).1) ∧
    (listKinds.contains b.data.type = false →
      block_to_markdown dl images_dir b depth s =
        block_to_markdown dl images_dir b 0 s) ∧
    (∀ t d, (childDepth t d = d + 1 ↔ listKinds.contains t = true) ∧
      (listKinds.contains t = false → childDepth t d = d)) := by
  refine ⟨?_, ?_, ?_⟩
  · intro h
    have h3 : b.data.type = "bulleted_list_item" ∨
        b.data.type = "numbered_list_item" ∨ b.data.type = "to_do" := by
      simpa [listKinds] using h
    rcases h3 with h3 | h3 | h3 <;>
      simp [block_to_markdown, h3, strRepeat_zero, String.empty_append,
        String.append_assoc]
  · intro h
    have h1 : b.data.type ≠ "bulleted_list_item" := by
      intro hx; rw [hx] at h; simp [listKinds] at h
    have h2 : b.data.type ≠ "numbered_list_item" := by
      intro hx; rw [hx] at h; simp [listKinds] at h
    have h3 : b.data.type ≠ "to_do" := by
      intro hx; rw [hx] at h; simp [listKinds] at h
    unfold block_to_markdown
    simp only [h1, h2, h3, if_false]
  · intro t d
    constructor
    · by_cases hc : listKinds.contains t = true
      · simp [childDepth, hc]
      · simp only [Bool.not_eq_true] at hc
        simp [childDepth, hc]
    · intro hc
      have hm : t ∉ listKinds := by simpa using hc
      simp [childDepth, hm]

/-- A concrete bulleted list item with inline text "x". -/
def bulletedX : Block :=
  Block.node
    { mkData "bulleted_list_item" with
        rich_text := [mkText "x" plainAnn none] } []

/-- C4 witness: the depth rules instantiated at a concrete bulleted item
rendered at depth 2. -/
theorem depth_and_indent_rules_witness :
    listKinds.contains bulletedX.data.type = true ∧
    (block_to_markdown (fun _ => false) "images" bulletedX 2 initSession).1 =
      strRepeat "  " 2 ++
        (block_to_markdown (fun _ => false) "images" bulletedX 0
          initSession).1 :=
  ⟨by decide,
   (depth_and_indent_rules (fun _ => false) "images" bulletedX 2
      initSession).1 (by decide)⟩

/-- An image block (no children) carrying the given image object. -/
def imageBlockOf (img : ImageObj) : Block :=
  Block.node { mkData "image" with image := img } []

theorem image_block_dispatch (dl : String → Bool) (images_dir : String)
    (img : ImageObj) (depth : Nat) (s : Session) :
    block_to_markdown dl images_dir (imageBlockOf img) depth s =
      image_block_to_markdown dl images_dir img s := by
  simp [block_to_markdown, imageBlockOf, mkData, Block.data]

theorem image_node_dispatch (dl : String → Bool) (images_dir : String)
    (img : ImageObj) (depth : Nat) (s : Session) :
    block_to_markdown dl images_dir
        (Block.node { mkData "image" with image := img } []) depth s =
      image_block_to_markdown dl images_dir img s := by
  simp [block_to_markdown, mkData, Block.data]

theorem image_counter_step (dl : String → Bool) (images_dir : String)
    (img : ImageObj) (s : Session) :
    (image_block_to_markdown dl images_dir img s).2.image_counter =
      (if get_image_url img ≠ "" then s.image_counter + 1
       else s.image_counter) := by
  unfold image_block_to_markdown
  by_cases h : get_image_url img = ""
  · simp [h]
  · by_cases hd : dl (get_image_url img) <;> simp [h, hd]

theorem blocksLines_image_counter (dl : String → Bool) (images_dir : String)
    (imgs : List ImageObj) (s : Session) :
    (blocksLines dl images_dir (imgs.map imageBlockOf) 0 s).2.image_counter =
      s.image_counter +
        (imgs.filter (fun i => get_image_url i != "")).length := by
  induction imgs generalizing s with
  | nil => simp [blocksLines]
  | cons i is ih =>
    have hunf :
        (blocksLines dl images_dir ((i :: is).map imageBlockOf) 0 s).2 =
          (blocksLines dl images_dir (is.map imageBlockOf) 0
            (image_block_to_markdown dl images_dir i s).2).2 := by
      rw [List.map_cons]
      rw [show imageBlockOf i =
            Block.node { mkData "image" with image := i } [] from rfl]
      simp only [blocksLines, mkData]
      rw [← image_block_dispatch dl images_dir i 0 s]
      simp [imageBlockOf, mkData]
    rw [hunf, ih, image_counter_step]
    by_cases hu : get_image_url i = ""
    · simp [hu, List.filter_cons]
    · simp [hu, List.filter_cons]
      omega


theorem blocksLines_nil (dl : String → Bool) (images_dir : String)
    (depth : Nat) (s : Session) :
    blocksLines dl images_dir [] depth s = ([], s) := by
  simp only [blocksLines]

theorem blocksLines_cons_nochild (dl : String → Bool) (images_dir : String)
    (bd : BlockData) (rest : List Block) (depth : Nat) (s : Session)
    (h : bd.has_children = false) :
    blocksLines dl images_dir (Block.node bd [] :: rest) depth s =
      ((if (block_to_markdown dl images_dir (Block.node bd []) depth s).1 ≠ ""
        then [(block_to_markdown dl images_dir (Block.node bd []) depth s).1]
        else []) ++
        (blocksLines dl images_dir rest depth
          (block_to_markdown dl images_dir (Block.node bd []) depth s).2).1,
       (blocksLines dl images_dir rest depth
          (block_to_markdown dl images_dir (Block.node bd []) depth s).2).2) := by
  simp only [blocksLines, h, Bool.false_eq_true, if_false, List.nil_append,
    List.append_nil]

/-- C3: for an image block whose extracted URL is non-empty but whose
download fails, the ledger is unchanged (and remains so for the rest of the
session state except the counter and the attempt log), the rendered
output references the original remote URL, with the block's caption as alt
text when present, and the conversion continues: in any block list the
failing image block contributes its fallback line and the remaining
sibling blocks are still processed. -/
theorem image_download_failure_fallback (dl : String → Bool)
    (images_dir : String) (image_block : ImageObj) (s : Session)
    (hurl : get_image_url image_block ≠ "")
    (hdl : dl (get_image_url image_block) = false) :
    (image_block_to_markdown dl images_dir image_block s).2.images =
      s.images ∧
    (image_block_to_markdown dl images_dir image_block s).1 =
      (if extract_plain_text image_block.caption ≠ "" then
        "![" ++ extract_plain_text image_block.caption ++ "](" ++
          get_image_url image_block ++ ")"
      else "![](" ++ get_image_url image_block ++ ")") ∧
    (∀ (rest : List Block) (depth : Nat),
      (blocksLines dl images_dir (imageBlockOf image_block :: rest) depth
          s).1 =
        (image_block_to_markdown dl images_dir image_block s).1 ::
          (blocksLines dl images_dir rest depth
            (image_block_to_markdown dl images_dir image_block s).2).1) := by
  have hshape : (image_block_to_markdown dl images_dir image_block s).1 =
      (if extract_plain_text image_block.caption ≠ "" then
        "![" ++ extract_plain_text image_block.caption ++ "](" ++
          get_image_url image_block ++ ")"
      else "![](" ++ get_image_url image_block ++ ")") := by
    unfold image_block_to_markdown
    simp [hurl, hdl]
  refine ⟨?_, hshape, ?_⟩
  · unfold image_block_to_markdown
    simp [hurl, hdl]
  · intro rest depth
    have hne : (image_block_to_markdown dl images_dir image_block s).1 ≠ "" := by
      rw [hshape]
      by_cases hc : extract_plain_text image_block.caption ≠ ""
      · rw [if_pos hc]
        intro habs
        have hd := congrArg String.data habs
        simp [String.data_append] at hd
      · rw [if_neg hc]
        intro habs
        have hd := congrArg String.data habs
        simp [String.data_append] at hd
    rw [show imageBlockOf image_block =
          Block.node { mkData "image" with image := image_block } [] from rfl]
    rw [blocksLines_cons_nochild _ _ _ _ _ _ rfl]
    rw [image_node_dispatch]
    simp [hne]

/-- C3 witness: a captioned external image whose download fails renders as
a reference to the remote URL with the caption as alt text, and the initial
session's empty ledger stays empty. -/
theorem image_download_failure_fallback_witness :
    (image_block_to_markdown (fun _ => false) "images"
        { itype := some "external", external_url := "http://h/pic.png",
          file_url := "", caption := [mkText "hi" plainAnn none] }
        initSession).2.images = initSession.images ∧
    (image_block_to_markdown (fun _ => false) "images"
        { itype := some "external", external_url := "http://h/pic.png",
          file_url := "", caption := [mkText "hi" plainAnn none] }
        initSession).1 = "![hi](http://h/pic.png)" := by
  have h := image_download_failure_fallback (fun _ => false) "images"
      { itype := some "external", external_url := "http://h/pic.png",
        file_url := "", caption := [mkText "hi" plainAnn none] }
      initSession (by decide) (by decide)
  exact ⟨h.1, by rw [h.2.1]; decide⟩

/-- A concrete external image object with a recognized extension. -/
def extImgA : ImageObj :=
  { itype := some "external", external_url := "http://h/a.png",
    file_url := "", caption := [] }

/-- C1 counterexample: a conversion whose traversal encounters two image
blocks, the first of which yields no URL.  The claim requires the second
encountered image block to receive counter value 2 (filename `image_002`),
but the code skips the counter for the URL-less block: the second block is
materialized as `image_001` and the conversion ends with the counter at 1,
not 2. -/
theorem urlless_image_gap_cex :
    (blocks_to_markdown (fun _ => true) "images"
        [imageBlockOf noImage, imageBlockOf extImgA] 0 initSession).1 =
      "![](images/image_001.png)" ∧
    (blocks_to_markdown (fun _ => true) "images"
        [imageBlockOf noImage, imageBlockOf extImgA] 0
        initSession).2.image_counter = 1 ∧
    (blocks_to_markdown (fun _ => true) "images"
        [imageBlockOf noImage, imageBlockOf extImgA] 0 initSession).1 ≠
      "![](images/image_002.png)" := by
  have st1 : block_to_markdown (fun _ => true) "images"
      (Block.node { mkData "image" with image := noImage } []) 0 initSession =
      ("", initSession) := by decide
  have st2 : block_to_markdown (fun _ => true) "images"
      (Block.node { mkData "image" with image := extImgA } []) 0 initSession =
      ("![](images/image_001.png)",
       { images := [{ original_url := "http://h/a.png",
                      local_path := "images/image_001.png",
                      itype := "external" }],
         image_counter := 1, attempts := ["http://h/a.png"] }) := by decide
  have hL : blocksLines (fun _ => true) "images"
      [imageBlockOf noImage, imageBlockOf extImgA] 0 initSession =
      (["![](images/image_001.png)"],
       { images := [{ original_url := "http://h/a.png",
                      local_path := "images/image_001.png",
                      itype := "external" }],
         image_counter := 1, attempts := ["http://h/a.png"] }) := by
    simp only [imageBlockOf]
    rw [blocksLines_cons_nochild _ _ _ _ _ _ rfl, st1]
    rw [blocksLines_cons_nochild _ _ _ _ _ _ rfl, st2]
    rw [blocksLines_nil]
    decide
  refine ⟨?_, ?_, ?_⟩ <;> simp only [blocks_to_markdown, hL] <;> decide

/-- C1 (amended): the media counter starts at 0 for each document
conversion and is incremented once per image block FROM WHICH A URL IS
EXTRACTED, independent of whether the subsequent download succeeds or
fails; the Nth URL-yielding image block gets counter value N (and, when its
download succeeds, the local filename `image_<pad3 N><ext>`); URL-less
image blocks are skipped without incrementing, so over a whole conversion
the final counter equals the number of URL-yielding image blocks. -/
theorem image_counter_per_url_block (dl : String → Bool)
    (images_dir : String) :
    (∀ img s, get_image_url img ≠ "" →
      (image_block_to_markdown dl images_dir img s).2.image_counter =
        s.image_counter + 1 ∧
      (dl (get_image_url img) = true →
        (image_block_to_markdown dl images_dir img s).1 =
          (if extract_plain_text img.caption ≠ "" then
            "![" ++ extract_plain_text img.caption ++ "](" ++
              (images_dir ++ "/" ++
                ("image_" ++ pad3 (s.image_counter + 1) ++
                  get_extension (get_image_url img))) ++ ")"
          else
            "![](" ++
              (images_dir ++ "/" ++
                ("image_" ++ pad3 (s.image_counter + 1) ++
                  get_extension (get_image_url img))) ++ ")"))) ∧
    initSession.image_counter = 0 ∧
    (∀ imgs : List ImageObj,
      (blocks_to_markdown dl images_dir (imgs.map imageBlockOf) 0
          initSession).2.image_counter =
        (imgs.filter (fun i => get_image_url i != "")).length) := by
  refine ⟨?_, rfl, ?_⟩
  · intro img s hurl
    constructor
    · rw [image_counter_step]
      simp [hurl]
    · intro hdl
      unfold image_block_to_markdown
      simp [hurl, hdl]
  · intro imgs
    simp only [blocks_to_markdown]
    rw [blocksLines_image_counter]
    simp [initSession]

/-- C1 witness: the amended counter rule instantiated at a concrete
external image in the initial session with an always-succeeding
downloader: the counter becomes 1 and the output references
`image_001.png`. -/
theorem image_counter_per_url_block_witness :
    (image_block_to_markdown (fun _ => true) "images" extImgA
        initSession).2.image_counter = initSession.image_counter + 1 ∧
    (image_block_to_markdown (fun _ => true) "images" extImgA
        initSession).1 = "![](images/image_001.png)" := by
  have h := ((image_counter_per_url_block (fun _ => true) "images").1 extImgA
      initSession (by decide))
  refine ⟨h.1, ?_⟩
  rw [h.2 rfl]
  decide

/-- Embedding of Python's `s.replace(pat, new, 1)` on character lists:
replace only the first (leftmost) occurrence. -/
def replaceFirstAux (s pat new : List Char) : List Char :=
  match s with
  | [] => if pat.isEmpty then new else []
  | c :: rest =>
    if pat.isPrefixOf (c :: rest) then new ++ (c :: rest).drop pat.length
    else c :: replaceFirstAux rest pat new

/-- Embedding of Python's `s.replace(pat, new, 1)` on `String`s. -/
def replaceFirst (s pat new : String) : String :=
  String.mk (replaceFirstAux s.data pat.data new.data)

theorem replaceFirstAux_self (p r n : List Char) :
    replaceFirstAux (p ++ r) p n = n ++ r := by
  cases p with
  | nil =>
    cases r with
    | nil => simp [replaceFirstAux]
    | cons c cs => simp [replaceFirstAux, List.isPrefixOf]
  | cons c cs =>
    have hpre : (c :: cs).isPrefixOf (c :: (cs ++ r)) = true := by
      rw [List.isPrefixOf_iff_prefix]
      exact List.prefix_append (c :: cs) r
    have hdrop : List.drop (c :: cs).length (c :: (cs ++ r)) = r := by
      have h2 := List.drop_left (c :: cs) r
      simp only [List.cons_append] at h2
      exact h2
    show replaceFirstAux (c :: (cs ++ r)) (c :: cs) n = n ++ r
    simp only [replaceFirstAux, hpre, if_true, hdrop]

theorem replaceFirstAux_not_occurs (s pat n : List Char)
    (h : subOccurs pat s = false) : replaceFirstAux s pat n = s := by
  induction s with
  | nil =>
    simp only [subOccurs] at h
    simp [replaceFirstAux, h]
  | cons c rest ih =>
    simp only [subOccurs, Bool.or_eq_false_iff] at h
    simp only [replaceFirstAux, h.1, Bool.false_eq_true, if_false]
    rw [ih h.2]

theorem replaceFirst_self (p r n : String) :
    replaceFirst (p ++ r) p n = n ++ r := by
  apply String.ext
  simp only [replaceFirst, String.data_append]
  exact replaceFirstAux_self p.data r.data n.data

theorem replaceFirst_not_occurs (s pat n : String)
    (h : containsSub pat s = false) : replaceFirst s pat n = s := by
  apply String.ext
  simp only [replaceFirst]
  exact replaceFirstAux_not_occurs s.data pat.data n.data h

/-- Embedding of the Markdown-assembly part of `_process_page` (lines
128-174): the session is reset, the body is rendered from the page's
blocks, the title is prepended as a heading when non-empty, and when a
cover image was materialized (`cover_image` is its local path) the first
occurrence of the title-heading text is replaced by itself followed by the
cover image markup.  Cover materialization itself (which precedes the body
render and touches only the ledger, never the media counter) is abstracted
into the `cover_image` argument. -/
def process_page_markdown (dl : String → Bool) (images_dir : String)
    (title : String) (cover_image : Option String) (blocks : List Block) :
    String × Session :=
  let body := (blocks_to_markdown dl images_dir blocks 0 initSession).1
  let md1 := if title ≠ "" then ("# " ++ title ++ "\n\n") ++ body else body
  let md2 := match cover_image with
    | some cp =>
      replaceFirst md1 ("# " ++ title ++ "\n\n")
        ("# " ++ title ++ "\n\n![cover](" ++ cp ++ ")\n\n")
    | none => md1
  (md2, (blocks_to_markdown dl images_dir blocks 0 initSession).2)

/-- A heading-1 block with no inline text (renders as the bare line
`# `). -/
def hEmptyHeading : Block :=
  Block.node (mkData "heading_1") []

/-- A paragraph block with inline text "World". -/
def pWorld : Block :=
  Block.node
    { mkData "paragraph" with rich_text := [mkText "World" plainAnn none] } []

theorem body_heading_world :
    blocks_to_markdown (fun _ => false) "images" [hEmptyHeading, pWorld] 0
      initSession = ("# \n\nWorld", initSession) := by
  have s1 : block_to_markdown (fun _ => false) "images"
      (Block.node (mkData "heading_1") []) 0 initSession =
      ("# ", initSession) := by decide
  have s2 : block_to_markdown (fun _ => false) "images"
      (Block.node
        { mkData "paragraph" with
            rich_text := [mkText "World" plainAnn none] } []) 0 initSession =
      ("World", initSession) := by decide
  have hL : blocksLines (fun _ => false) "images" [hEmptyHeading, pWorld] 0
      initSession = (["# ", "World"], initSession) := by
    simp only [hEmptyHeading, pWorld]
    rw [blocksLines_cons_nochild _ _ _ _ _ _ rfl, s1]
    rw [blocksLines_cons_nochild _ _ _ _ _ _ rfl, s2]
    rw [blocksLines_nil]
    decide
  simp only [blocks_to_markdown, hL]
  decide

/-- C6 counterexample: with an EMPTY title, a successfully materialized
cover, and a body that happens to contain the empty-title heading pattern
(an empty heading-1 block followed by a paragraph renders as
`# \n\nWorld`), the cover IS spliced into the body — the substitution
pattern `# \n\n` matches inside the body — although the claim says a
cover without a title is never inserted. -/
theorem cover_no_title_cex :
    (process_page_markdown (fun _ => false) "images" "" (some "images/cover.png")
        [hEmptyHeading, pWorld]).1 =
      "# \n\n![cover](images/cover.png)\n\nWorld" ∧
    containsSub "![cover](images/cover.png)"
      (process_page_markdown (fun _ => false) "images" ""
          (some "images/cover.png") [hEmptyHeading, pWorld]).1 = true := by
  have h1 : (process_page_markdown (fun _ => false) "images" ""
      (some "images/cover.png") [hEmptyHeading, pWorld]).1 =
      "# \n\n![cover](images/cover.png)\n\nWorld" := by
    simp only [process_page_markdown, body_heading_world]
    decide
  exact ⟨h1, by rw [h1]; decide⟩

/-- C6 (amended): when the title is non-empty the cover markup is inserted
exactly once, immediately after the title heading (the first occurrence of
the title-heading text, which is the prepended title itself); when the
title is EMPTY the cover is not inserted PROVIDED the rendered body does
not contain the empty-title pattern `# \n\n` — a body containing that
literal (e.g. from an empty heading) has the cover spliced at its first
occurrence instead. -/
theorem cover_insertion (dl : String → Bool) (images_dir : String) :
    (∀ (title cp : String) (blocks : List Block), title ≠ "" →
      (process_page_markdown dl images_dir title (some cp) blocks).1 =
        ("# " ++ title ++ "\n\n![cover](" ++ cp ++ ")\n\n") ++
          (blocks_to_markdown dl images_dir blocks 0 initSession).1) ∧
    (∀ (cp : String) (blocks : List Block),
      containsSub "# \n\n"
          (blocks_to_markdown dl images_dir blocks 0 initSession).1 = false →
      (process_page_markdown dl images_dir "" (some cp) blocks).1 =
        (blocks_to_markdown dl images_dir blocks 0 initSession).1) := by
  constructor
  · intro title cp blocks htitle
    simp only [process_page_markdown]
    rw [if_pos htitle, replaceFirst_self]
  · intro cp blocks hocc
    simp only [process_page_markdown]
    rw [if_neg (fun hh => hh rfl)]
    rw [show ("# " ++ "" ++ "\n\n" : String) = "# \n\n" from by decide]
    exact replaceFirst_not_occurs _ _ _ hocc

theorem body_world_only :
    blocks_to_markdown (fun _ => false) "images" [pWorld] 0 initSession =
      ("World", initSession) := by
  have s2 : block_to_markdown (fun _ => false) "images"
      (Block.node
        { mkData "paragraph" with
            rich_text := [mkText "World" plainAnn none] } []) 0 initSession =
      ("World", initSession) := by decide
  have hL : blocksLines (fun _ => false) "images" [pWorld] 0 initSession =
      (["World"], initSession) := by
    simp only [pWorld]
    rw [blocksLines_cons_nochild _ _ _ _ _ _ rfl, s2]
    rw [blocksLines_nil]
    decide
  simp only [blocks_to_markdown, hL]
  decide

/-- C6 witness: the insertion rules instantiated concretely: a page titled
"Hello" with a cover and a "World" paragraph gets the cover right after
the title; the same page with an empty title drops the cover. -/
theorem cover_insertion_witness :
    (process_page_markdown (fun _ => false) "images" "Hello"
        (some "images/cover.png") [pWorld]).1 =
      "# Hello\n\n![cover](images/cover.png)\n\nWorld" ∧
    (process_page_markdown (fun _ => false) "images" ""
        (some "images/cover.png") [pWorld]).1 = "World" := by
  constructor
  · have h := (cover_insertion (fun _ => false) "images").1 "Hello"
        "images/cover.png" [pWorld] (by decide)
    rw [h, body_world_only]
    decide
  · have h := (cover_insertion (fun _ => false) "images").2 "images/cover.png"
        [pWorld] (by rw [body_world_only]; decide)
    rw [h, body_world_only]
